import Mathlib

/-!
Shallow embedding of the primitive-datatype parsing and validation engine of
the rust-xml-schema repository (src/xml-schema/src/primitives.rs), together
with theorems checking the natural-language specification against it.

Strings are modelled as `List Char` (the code splits at character
boundaries), machine integers as `Int` with explicit reduction modulo 2^64
where the source's i64 arithmetic can overflow, and the arbitrary-precision
decimal value space as `ℚ`.  A parse returns `noMatch` where the source
returns `None`, `fatal` where the source panics (facet or protocol
violation), and `ok remainder value` on success.
-/

namespace RustXmlSchema

/-- Result of a value-space parse (`parse_self_xml_str`): `noMatch` models a
`None` return, `fatal` models a panic raised by a validation macro, and
`ok rest v` models `Some((rest, v))`. -/
inductive PRes (α : Type) where
  | noMatch : PRes α
  | fatal : PRes α
  | ok : List Char → α → PRes α
deriving DecidableEq, Repr

/-- Map over the value of a successful parse, keeping the remainder. -/
def PRes.map {α β : Type} (g : α → β) : PRes α → PRes β
  | .noMatch => .noMatch
  | .fatal => .fatal
  | .ok r v => .ok r (g v)

/-- The facet set of `support::Facets`: optional string facets
(enumeration, length, min_length, max_length) and optional numeric bounds
(the source's `BigFloatNotNaN` bounds, modelled as exact rationals). -/
structure Facets where
  enumeration : Option (List (List Char))
  length : Option Nat
  min_length : Option Nat
  max_length : Option Nat
  min_exclusive : Option ℚ
  min_inclusive : Option ℚ
  max_exclusive : Option ℚ
  max_inclusive : Option ℚ
deriving DecidableEq, Repr

/-- The unconstrained facet set (every field absent). -/
def noFacets : Facets := ⟨none, none, none, none, none, none, none, none⟩

/-- Which check of the `validate_str!` macro panicked. -/
inductive StrFacetViolation where
  | enumeration | length | minLength | maxLength
deriving DecidableEq, Repr

/-- Which check of the `validate_decimal!` macro panicked. -/
inductive NumFacetViolation where
  | minExclusive | minInclusive | maxExclusive | maxInclusive
deriving DecidableEq, Repr

/-- The `validate_str!` macro: enumeration membership, then exact length,
then minimum length, then maximum length; the first violated check panics
(modelled by returning its tag). -/
def validate_str (s : List Char) (f : Facets) : Option StrFacetViolation :=
  if f.enumeration.isSome ∧ ¬ s ∈ f.enumeration.getD [] then some .enumeration
  else if f.length.isSome ∧ s.length ≠ f.length.getD 0 then some .length
  else if f.min_length.isSome ∧ s.length < f.min_length.getD 0 then some .minLength
  else if f.max_length.isSome ∧ f.max_length.getD 0 < s.length then some .maxLength
  else none

/-- The `validate_decimal!` macro: the candidate must be strictly greater
than `min_exclusive`, at least `min_inclusive`, strictly less than
`max_exclusive` and at most `max_inclusive`; the first violated bound
panics (modelled by returning its tag).  Comparisons are exact (ℚ). -/
def validate_decimal (n : ℚ) (f : Facets) : Option NumFacetViolation :=
  if f.min_exclusive.isSome ∧ n ≤ f.min_exclusive.getD 0 then some .minExclusive
  else if f.min_inclusive.isSome ∧ n < f.min_inclusive.getD 0 then some .minInclusive
  else if f.max_exclusive.isSome ∧ f.max_exclusive.getD 0 ≤ n then some .maxExclusive
  else if f.max_inclusive.isSome ∧ f.max_inclusive.getD 0 < n then some .maxInclusive
  else none

/-- Abbreviation for turning a string literal into the character list it
denotes. -/
def cl (s : String) : List Char := s.data

/-- The scanning loop of `Token::parse_self_xml_str`: the position (if any)
at which the token ends.  A space followed by a space, carriage return,
newline or tab, or a space at the end of input, ends the token at the
space; carriage return, newline and tab end the token where they stand.
The caller has already ruled out a leading space. -/
def tokenFindSplit : List Char → Nat → Option Nat
  | [], _ => none
  | ' ' :: rest, i =>
    match rest with
    | [] => some i
    | c2 :: _ =>
      if c2 = ' ' ∨ c2 = '\r' ∨ c2 = '\n' ∨ c2 = '\t' then some i
      else tokenFindSplit rest (i + 1)
  | '\r' :: _, i => some i
  | '\n' :: _, i => some i
  | '\t' :: _, i => some i
  | _ :: rest, i => tokenFindSplit rest (i + 1)

/-- `Token::parse_self_xml_str`: empty input and a leading space are
no-match; otherwise the input is split by `tokenFindSplit`, and the
isolated candidate (the whole input if no split was found) is validated
against the string facets before being returned. -/
def Token.parse_self_xml_str (input : List Char) (facets : Facets) : PRes (List Char) :=
  if input = [] then .noMatch
  else if input.head? = some ' ' then .noMatch
  else
    match tokenFindSplit input 0 with
    | some i =>
      match validate_str (input.take i) facets with
      | some _ => .fatal
      | none => .ok (input.drop i) (input.take i)
    | none =>
      match validate_str input facets with
      | some _ => .fatal
      | none => .ok [] input

example : Token.parse_self_xml_str (cl "a  b") noFacets = .ok (cl "  b") (cl "a") := by decide
example : Token.parse_self_xml_str (cl "a b") noFacets = .ok [] (cl "a b") := by decide
example : Token.parse_self_xml_str (cl " a") noFacets = .noMatch := by decide
example : Token.parse_self_xml_str (cl "ab") ⟨none, none, none, some 1, none, none, none, none⟩ = .fatal := by decide

/-- A resolved qualified name (`primitives::QName`): optional namespace and
local name.  The source field `namespace` is a Lean keyword, hence
`namespace_`. -/
structure QName where
  namespace_ : Option (List Char)
  local_name : List Char
deriving DecidableEq, Repr

/-- Modelled from the spec: `support::ParentContext` (the support module is
outside src/) carries the in-scope namespace-prefix bindings, "an immutable
mapping from namespace prefix (string, empty string = default/no-prefix) to
namespace URI"; modelled as an association list consulted by exact-prefix
lookup. -/
structure ParentContext where
  namespaces : List (List Char × List Char)
deriving DecidableEq, Repr

/-- Prefix lookup in the scope's mapping (`parent_context.namespaces.get`). -/
def ParentContext.get (pc : ParentContext) (pfx : List Char) : Option (List Char) :=
  pc.namespaces.lookup pfx

/-- The scanning loop of `QName::parse_self_xml_str`: walks the input
remembering the index `i1` of the last colon seen; stops at the first
space, yielding `Sum.inl (space index, i1 at that point)`, or at the end
of input, yielding `Sum.inr i1`. -/
def qnameFindSpace : List Char → Nat → Nat → (Nat × Nat) ⊕ Nat
  | [], _, i1 => Sum.inr i1
  | c :: rest, i, i1 =>
    if c = ':' then qnameFindSpace rest (i + 1) i
    else if c = ' ' then Sum.inl (i, i1)
    else qnameFindSpace rest (i + 1) i1

/-- `QName::parse_self_xml_str`: empty input is no-match; a space at
position 0 or at most one past the last colon is no-match.  When a space
terminates the name and a colon was seen, the slice `input[0..i1+1]` (colon
included) is resolved as the prefix and `input[i1+1..i+1]` (terminating
space included) is the local name; without a colon the local name is
`input[0..i+1]` under the empty prefix.  Without a terminating space the
split at the last colon is clean: prefix `input[0..i1]`, local
`input[i1+1..]`. -/
def QName.parse_self_xml_str (input : List Char) (parent_context : ParentContext)
    (facets : Facets) : PRes QName :=
  if input = [] then .noMatch
  else
    match qnameFindSpace input 0 0 with
    | Sum.inl (i, i1) =>
      if i = 0 ∨ i ≤ i1 + 1 then .noMatch
      else if 0 < i1 then
        .ok (input.drop i)
          ⟨parent_context.get (input.take (i1 + 1)), (input.drop (i1 + 1)).take (i - i1)⟩
      else
        .ok (input.drop i) ⟨parent_context.get [], input.take (i + 1)⟩
    | Sum.inr i1 =>
      if 0 < i1 then
        .ok [] ⟨parent_context.get (input.take i1), input.drop (i1 + 1)⟩
      else
        .ok [] ⟨parent_context.get [], input⟩

/-- `AnyUri::parse_self_xml_str`: empty input is no-match; the value ends
at the first space (a space at position 0 is no-match, the remainder starts
at the space) or at the end of input.  No facet validation is performed. -/
def AnyUri.parse_self_xml_str (input : List Char) (facets : Facets) : PRes (List Char) :=
  if input = [] then .noMatch
  else
    match input.findIdx? (fun c => c == ' ') with
    | some 0 => .noMatch
    | some i => .ok (input.drop i) (input.take i)
    | none => .ok [] input

/-- Modelled from the spec: `xml_utils::is_xml_char` (the xml_utils module
is outside src/) decides legality of a character in XML text, per the XML
Char production: tab, newline, carriage return, and the planes
#x20-#xD7FF, #xE000-#xFFFD and #x10000-#x10FFFF. -/
def is_xml_char (c : Char) : Bool :=
  decide (c = '\t' ∨ c = '\n' ∨ c = '\r' ∨
    (0x20 ≤ c.toNat ∧ c.toNat ≤ 0xD7FF) ∨
    (0xE000 ≤ c.toNat ∧ c.toNat ≤ 0xFFFD) ∨
    (0x10000 ≤ c.toNat ∧ c.toNat ≤ 0x10FFFF))

/-- Modelled from the spec: `xml_utils::is_name_start_char` (outside src/),
the XML NameStartChar production (colon included; the NcName parser rejects
the colon separately). -/
def is_name_start_char (c : Char) : Bool :=
  decide (c = ':' ∨ ('A' ≤ c ∧ c ≤ 'Z') ∨ c = '_' ∨ ('a' ≤ c ∧ c ≤ 'z') ∨
    (0xC0 ≤ c.toNat ∧ c.toNat ≤ 0xD6) ∨ (0xD8 ≤ c.toNat ∧ c.toNat ≤ 0xF6) ∨
    (0xF8 ≤ c.toNat ∧ c.toNat ≤ 0x2FF) ∨ (0x370 ≤ c.toNat ∧ c.toNat ≤ 0x37D) ∨
    (0x37F ≤ c.toNat ∧ c.toNat ≤ 0x1FFF) ∨ (0x200C ≤ c.toNat ∧ c.toNat ≤ 0x200D) ∨
    (0x2070 ≤ c.toNat ∧ c.toNat ≤ 0x218F) ∨ (0x2C00 ≤ c.toNat ∧ c.toNat ≤ 0x2FEF) ∨
    (0x3001 ≤ c.toNat ∧ c.toNat ≤ 0xD7FF) ∨ (0xF900 ≤ c.toNat ∧ c.toNat ≤ 0xFDCF) ∨
    (0xFDF0 ≤ c.toNat ∧ c.toNat ≤ 0xFFFD) ∨ (0x10000 ≤ c.toNat ∧ c.toNat ≤ 0xEFFFF))

/-- Modelled from the spec: `xml_utils::is_name_char` (outside src/), the
XML NameChar production: a NameStartChar or a digit, hyphen, dot, #xB7,
#x300-#x36F or #x203F-#x2040. -/
def is_name_char (c : Char) : Bool :=
  is_name_start_char c ||
  decide (c = '-' ∨ c = '.' ∨ ('0' ≤ c ∧ c ≤ '9') ∨ c.toNat = 0xB7 ∨
    (0x300 ≤ c.toNat ∧ c.toNat ≤ 0x36F) ∨ (0x203F ≤ c.toNat ∧ c.toNat ≤ 0x2040))

/-- `XmlString::parse_self_xml_str`: the value ends at the first character
that is not a legal XML character; that split path validates the isolated
candidate against the string facets, while the whole-input path returns the
input unvalidated (empty input included). -/
def XmlString.parse_self_xml_str (input : List Char) (facets : Facets) : PRes (List Char) :=
  match input.findIdx? (fun c => ! is_xml_char c) with
  | some i =>
    match validate_str (input.take i) facets with
    | some _ => .fatal
    | none => .ok (input.drop i) (input.take i)
  | none => .ok [] input

/-- `AnySimpleType::parse_self_xml_str`: unconditionally returns the whole
input as the value with an empty remainder (even when the input is empty);
no validation, no no-match. -/
def AnySimpleType.parse_self_xml_str (input : List Char) (facets : Facets) :
    PRes (List Char) :=
  .ok [] input

/-- `NcName::parse_self_xml_str`: empty input, a leading colon or an
illegal name-start character is no-match; the value ends at the first
subsequent colon or non-name character, and that split path validates the
candidate against the string facets, while the whole-input path returns the
input unvalidated. -/
def NcName.parse_self_xml_str (input : List Char) (facets : Facets) : PRes (List Char) :=
  match input with
  | [] => .noMatch
  | c :: rest =>
    if c = ':' ∨ ¬ is_name_start_char c then .noMatch
    else
      match rest.findIdx? (fun d => d == ':' || ! is_name_char d) with
      | some j =>
        match validate_str (input.take (j + 1)) facets with
        | some _ => .fatal
        | none => .ok (input.drop (j + 1)) (input.take (j + 1))
      | none => .ok [] input

/-- `Boolean::parse_self_xml_str`: a leading `'0'` or `'1'` is matched
first, consuming one character; then the four-character prefix is compared
with `"true"`; then, guarded by a length of at least five, the
four-character prefix is compared with the five-character literal
`"false"` — a comparison that can never succeed, exactly as in the
source. -/
def Boolean.parse_self_xml_str (input : List Char) (facets : Facets) : PRes Bool :=
  match input with
  | '0' :: rest => .ok rest false
  | '1' :: rest => .ok rest true
  | _ =>
    if 4 ≤ input.length ∧ input.take 4 = cl "true" then .ok (input.drop 4) true
    else if 5 ≤ input.length ∧ input.take 4 = cl "false" then .ok (input.drop 5) false
    else .noMatch

example : QName.parse_self_xml_str (cl "xs:foo") ⟨[(cl "xs", cl "u")]⟩ noFacets
    = .ok [] ⟨some (cl "u"), cl "foo"⟩ := by decide
example : QName.parse_self_xml_str (cl "xs:foo x") ⟨[(cl "xs", cl "u")]⟩ noFacets
    = .ok (cl " x") ⟨none, cl "foo "⟩ := by decide
example : QName.parse_self_xml_str (cl "foo") ⟨[(cl "xs", cl "u")]⟩ noFacets
    = .ok [] ⟨none, cl "foo"⟩ := by decide
example : Boolean.parse_self_xml_str (cl "false") noFacets = .noMatch := by decide
example : Boolean.parse_self_xml_str (cl "truex") noFacets = .ok (cl "x") true := by decide
example : NcName.parse_self_xml_str (cl "ab c") noFacets = .ok (cl " c") (cl "ab") := by decide
example : XmlString.parse_self_xml_str (cl "ab") ⟨none, none, none, some 1, none, none, none, none⟩
    = .ok [] (cl "ab") := by decide

/-- Two's-complement wraparound of the source's `i64` arithmetic: reduce
into `[-2^63, 2^63)`. -/
def wrap64 (n : Int) : Int := (n + 2 ^ 63) % 2 ^ 64 - 2 ^ 63

/-- Decimal-digit test (`'0'..='9'`). -/
def isDigitCh (c : Char) : Bool := decide ('0' ≤ c ∧ c ≤ '9')

/-- Numeric value of one digit (`(c as i64) - ('0' as i64)`). -/
def digitVal (c : Char) : Int := (c.toNat : Int) - ('0'.toNat : Int)

/-- The digit-accumulation loop of `Integer::parse_self_xml_str`:
`n = n * 10 + d` in `i64` arithmetic (hence `wrap64`), stopping at the
first non-digit, which is left at the head of the returned remainder. -/
def Integer.lex_digits (n : Int) : List Char → Int × List Char
  | [] => (n, [])
  | c :: rest =>
    if isDigitCh c then Integer.lex_digits (wrap64 (n * 10 + digitVal c)) rest
    else (n, c :: rest)

/-- The lexical phase of `Integer::parse_self_xml_str`: an optional leading
`'+'` or `'-'` (which must be followed by a digit) or a leading digit,
then the accumulation loop; the signed result is `multiplier * n` in `i64`
arithmetic. -/
def Integer.lex (input : List Char) : Option (List Char × Int) :=
  match input with
  | [] => none
  | c :: rest =>
    if c = '+' ∨ c = '-' then
      match rest with
      | [] => none
      | d :: rest2 =>
        if isDigitCh d then
          let p := Integer.lex_digits (digitVal d) rest2
          some (p.2, wrap64 ((if c = '-' then -1 else 1) * p.1))
        else none
    else if isDigitCh c then
      let p := Integer.lex_digits (digitVal c) rest
      some (p.2, wrap64 (1 * p.1))
    else none

/-- `Integer::parse_self_xml_str`: lexical recognition (`Integer.lex`),
then `validate_int!`, which converts the signed result to the decimal
value space and applies the numeric facets; a violation panics (fatal). -/
def Integer.parse_self_xml_str (input : List Char) (facets : Facets) : PRes Int :=
  match Integer.lex input with
  | none => .noMatch
  | some (rem, res) =>
    match validate_decimal (res : ℚ) facets with
    | some _ => .fatal
    | none => .ok rem res

/-- The source's `n.0 as u64` re-wrap of a validated `i64` magnitude. -/
def u64_cast (n : Int) : Nat := (n % 2 ^ 64).toNat

/-- `NonNegativeInteger::parse_self_xml_str`: tightens `min_inclusive` to
`max(0, caller's min_inclusive or 0)` on a clone of the facet set,
delegates to `Integer`, and re-wraps the validated value as unsigned. -/
def NonNegativeInteger.parse_self_xml_str (input : List Char) (facets : Facets) :
    PRes Nat :=
  let mn := max 0 (facets.min_inclusive.getD 0)
  match Integer.parse_self_xml_str input { facets with min_inclusive := some mn } with
  | .noMatch => .noMatch
  | .fatal => .fatal
  | .ok rem n => .ok rem (u64_cast n)

/-- `PositiveInteger::parse_self_xml_str`: tightens `min_inclusive` to
`max(1, caller's min_inclusive or 0)` on a clone of the facet set and
delegates to `NonNegativeInteger`. -/
def PositiveInteger.parse_self_xml_str (input : List Char) (facets : Facets) :
    PRes Nat :=
  let mn := max 1 (facets.min_inclusive.getD 0)
  match NonNegativeInteger.parse_self_xml_str input { facets with min_inclusive := some mn } with
  | .noMatch => .noMatch
  | .fatal => .fatal
  | .ok rem n => .ok rem n

/-- Natural value of a digit string, most significant first. -/
def digitsVal (l : List Char) : Nat := l.foldl (fun n c => n * 10 + (c.toNat - '0'.toNat)) 0

/-- Modelled from the spec: the external arbitrary-precision decimal parser
(`BigDecimal::from_str` of the bigdecimal crate, not code of this
repository) to which `Decimal` "delegates lexical recognition"; an optional
sign, then digits with an optional fractional part, at least one digit in
all; anything else (the empty string included) is a parse failure. -/
def decimalFromStr (s : List Char) : Option ℚ :=
  let sgn : ℚ := if s.head? = some '-' then -1 else 1
  let body := if s.head? = some '-' ∨ s.head? = some '+' then s.tail else s
  let ip := body.takeWhile isDigitCh
  let rest := body.dropWhile isDigitCh
  match rest with
  | [] => if ip = [] then none else some (sgn * (digitsVal ip : ℚ))
  | '.' :: fr =>
    if fr.all isDigitCh ∧ (ip ≠ [] ∨ fr ≠ []) then
      some (sgn * ((digitsVal ip : ℚ) + (digitsVal fr : ℚ) / (10 : ℚ) ^ fr.length))
    else none
  | _ => none

/-- `Decimal::parse_self_xml_str`: the substring up to the first space (or
the whole input) is handed to the external decimal parser; a parse failure
there is no-match, and a successfully parsed value is validated against the
numeric facets (a violation panics). -/
def Decimal.parse_self_xml_str (input : List Char) (facets : Facets) : PRes ℚ :=
  match input.findIdx? (fun c => c == ' ') with
  | some i =>
    match decimalFromStr (input.take i) with
    | none => .noMatch
    | some res =>
      match validate_decimal res facets with
      | some _ => .fatal
      | none => .ok (input.drop i) res
  | none =>
    match decimalFromStr input with
    | none => .noMatch
    | some res =>
      match validate_decimal res facets with
      | some _ => .fatal
      | none => .ok [] res

example : Integer.parse_self_xml_str (cl "-5") noFacets = .ok [] (-5) := by decide
example : Integer.parse_self_xml_str (cl "+12 x") noFacets = .ok (cl " x") 12 := by decide
example : Integer.parse_self_xml_str (cl "+") noFacets = .noMatch := by decide
example : NonNegativeInteger.parse_self_xml_str (cl "5")
    ⟨none, none, none, none, none, some (-3), none, none⟩ = .ok [] 5 := by decide
example : NonNegativeInteger.parse_self_xml_str (cl "-5") noFacets = .fatal := by decide
example : PositiveInteger.parse_self_xml_str (cl "0") noFacets = .fatal := by decide
example : Decimal.parse_self_xml_str (cl "x") noFacets = .noMatch := by decide
example : Decimal.parse_self_xml_str [] noFacets = .noMatch := by decide

/-- The `xmlparser::ElementEnd` variants: `>` of an open tag, a close tag
`</prefix:name>`, or `/>` of an empty element. -/
inductive ElementEnd where
  | Open : ElementEnd
  | Close : List Char → List Char → ElementEnd
  | Empty : ElementEnd
deriving DecidableEq, Repr

/-- The `xmlparser::Token` variants the core inspects, plus `Attribute`
standing for the remaining variants it treats uniformly as "other". -/
inductive XmlToken where
  | ElementStart : List Char → List Char → XmlToken
  | ElementEndTok : ElementEnd → XmlToken
  | Text : List Char → XmlToken
  | Comment : List Char → XmlToken
  | Whitespaces : List Char → XmlToken
  | Attribute : List Char → List Char → XmlToken
deriving DecidableEq, Repr

/-- `QName::from_strspans`: an empty prefix span means no namespace,
otherwise the prefix span itself is stored as the namespace field. -/
def QName.from_strspans (pfx loc : List Char) : QName :=
  if pfx = [] then ⟨none, loc⟩ else ⟨some pfx, loc⟩

/-- Result of an element-space parse (`parse_self_xml`).  The token cursor
(modelled as the list of not-yet-consumed tokens) is part of the result so
that consumption on failure is observable: `noMatch s` models a `None`
return leaving the stream at `s`, `fatal` models a panic, and `ok s v`
models `Some(v)` leaving the stream at `s`. -/
inductive PXRes (α : Type) where
  | noMatch : List XmlToken → PXRes α
  | fatal : PXRes α
  | ok : List XmlToken → α → PXRes α
deriving DecidableEq, Repr

/-- `AnyURIElement::parse_self_xml`: calls `stream.next()` (consuming a
token) and matches only `Text`; any other token yields `None` with the
token already consumed, and an exhausted stream yields `None`. -/
def AnyURIElement.parse_self_xml (stream : List XmlToken) : PXRes (List Char) :=
  match stream with
  | XmlToken.Text s :: rest => .ok rest s
  | _ :: rest => .noMatch rest
  | [] => .noMatch []

/-- Outcome of the first loop of `Any::parse_self_xml` (see
`Any.skip_phase`). -/
inductive Phase1Out where
  | nomatch : List XmlToken → Phase1Out
  | done : List XmlToken → List XmlToken → Phase1Out
  | toPhase2 : List XmlToken → List XmlToken → QName → Phase1Out
deriving DecidableEq, Repr

/-- The first loop of `Any::parse_self_xml`: each iteration opens a
transaction and consumes a token; whitespace, comments and text accumulate;
an `ElementStart` pushes its QName and moves to the tag-balancing loop; any
other token is rolled back, ending the wildcard (`done`) when something was
accumulated and reporting no-match otherwise; an exhausted stream is
propagated as no-match by the `?` operator without a rollback, leaving the
already-consumed accumulation consumed. -/
def Any.skip_phase (stream : List XmlToken) (tokens : List XmlToken) : Phase1Out :=
  match stream with
  | [] => .nomatch []
  | tok :: rest =>
    match tok with
    | .Whitespaces _ => Any.skip_phase rest (tokens ++ [tok])
    | .Comment _ => Any.skip_phase rest (tokens ++ [tok])
    | .Text _ => Any.skip_phase rest (tokens ++ [tok])
    | .ElementStart p n => .toPhase2 rest (tokens ++ [tok]) (QName.from_strspans p n)
    | _ => if 0 < tokens.length then .done (tok :: rest) tokens else .nomatch (tok :: rest)

/-- The tag-balancing loop of `Any::parse_self_xml`: while the stack is
non-empty, `stream.next().unwrap()` consumes a token (panicking on an
exhausted stream) and appends it; `ElementStart` pushes, an `ElementEnd`
close is `assert_eq!`-compared with the popped top of the stack (a mismatch
panics), an empty-element end pops unconditionally, and everything else is
kept without touching the stack. -/
def Any.tag_loop (stack : List QName) (stream : List XmlToken)
    (tokens : List XmlToken) : PXRes (List XmlToken) :=
  match stack with
  | [] => .ok stream tokens
  | q :: stack2 =>
    match stream with
    | [] => .fatal
    | tok :: rest =>
      match tok with
      | .ElementStart p n =>
        Any.tag_loop (QName.from_strspans p n :: q :: stack2) rest (tokens ++ [tok])
      | .ElementEndTok .Open => Any.tag_loop (q :: stack2) rest (tokens ++ [tok])
      | .ElementEndTok (.Close p n) =>
        if QName.from_strspans p n = q then Any.tag_loop stack2 rest (tokens ++ [tok])
        else .fatal
      | .ElementEndTok .Empty => Any.tag_loop stack2 rest (tokens ++ [tok])
      | _ => Any.tag_loop (q :: stack2) rest (tokens ++ [tok])

/-- `Any::parse_self_xml`: the skipping loop followed, once an
`ElementStart` has been seen, by the tag-balancing loop. -/
def Any.parse_self_xml (stream : List XmlToken) : PXRes (List XmlToken) :=
  match Any.skip_phase stream [] with
  | .nomatch s => .noMatch s
  | .done s tokens => .ok s tokens
  | .toPhase2 s tokens q => Any.tag_loop [q] s tokens

example :
    Any.parse_self_xml
      [.ElementStart [] (cl "foo"), .Text (cl "hi"), .ElementStart [] (cl "bar"),
       .ElementEndTok .Empty, .ElementEndTok (.Close [] (cl "foo"))] =
    .ok []
      [.ElementStart [] (cl "foo"), .Text (cl "hi"), .ElementStart [] (cl "bar"),
       .ElementEndTok .Empty, .ElementEndTok (.Close [] (cl "foo"))] := by decide
example :
    Any.parse_self_xml [.ElementStart [] (cl "foo"), .ElementEndTok (.Close [] (cl "bar"))] =
    .fatal := by decide
example : Any.parse_self_xml [.Text (cl "hi")] = .noMatch [] := by decide
example :
    AnyURIElement.parse_self_xml [.ElementStart [] (cl "foo")] = .noMatch [] := by decide

/-! ## Claim theorems -/

/-- C1, counterexample.  The claim states that parsing `"a  b"` as a Token
yields value `"a"` with remainder `" b"` (one space); the code splits
before the first space, so the remainder is `"  b"` and the claimed result
is not what the parser returns. -/
theorem C1_token_collapse_counterexample :
    Token.parse_self_xml_str (cl "a  b") noFacets ≠ .ok (cl " b") (cl "a") := by
  decide

/-- C1, amended.  Token parsing: a leading space (and only an empty input
or a leading space) is no-match; a space followed by another whitespace
character or ending the input ends the token before that space, so
`"a  b"` yields value `"a"` with remainder `"  b"` (both spaces), `"a "`
yields `"a"` with remainder `" "`; carriage return, newline and tab end
the token where they stand; a single interior space is literal content
(`"a b"` yields `"a b"` with empty remainder). -/
theorem C1_token_collapse :
    (∀ cs f, Token.parse_self_xml_str (' ' :: cs) f = .noMatch) ∧
    (∀ cs f, Token.parse_self_xml_str cs f = .noMatch ↔ (cs = [] ∨ cs.head? = some ' ')) ∧
    Token.parse_self_xml_str (cl "a  b") noFacets = .ok (cl "  b") (cl "a") ∧
    Token.parse_self_xml_str (cl "a b") noFacets = .ok [] (cl "a b") ∧
    Token.parse_self_xml_str (cl "a ") noFacets = .ok (cl " ") (cl "a") ∧
    Token.parse_self_xml_str (cl "a\rb") noFacets = .ok (cl "\rb") (cl "a") ∧
    Token.parse_self_xml_str (cl "a\nb") noFacets = .ok (cl "\nb") (cl "a") ∧
    Token.parse_self_xml_str (cl "a\tb") noFacets = .ok (cl "\tb") (cl "a") := by
  refine ⟨?_, ?_, by decide, by decide, by decide, by decide, by decide, by decide⟩
  · intro cs f
    simp [Token.parse_self_xml_str]
  · intro cs f
    constructor
    · intro h
      by_contra hc
      push_neg at hc
      simp only [Token.parse_self_xml_str, if_neg hc.1, if_neg hc.2] at h
      split at h
      · split at h <;> simp_all
      · split at h <;> simp_all
    · rintro (rfl | h2)
      · rfl
      · obtain ⟨t, rfl⟩ : ∃ t, cs = ' ' :: t := by
          cases cs <;> simp_all
        simp [Token.parse_self_xml_str]

/-- C2: the code evaluated at the failing input.  The source guards the
`"false"` branch with `input.len() >= 5` but compares the four-character
slice `input[0..4]` with the five-character literal `"false"`, which can
never be equal, so `"false"` (with or without a continuation) is no-match;
the other literals behave as the claim states, `'0'`/`'1'` first. -/
theorem C2_boolean_false_bug :
    Boolean.parse_self_xml_str (cl "false") noFacets = .noMatch ∧
    Boolean.parse_self_xml_str (cl "falsex") noFacets = .noMatch ∧
    Boolean.parse_self_xml_str (cl "0x") noFacets = .ok (cl "x") false ∧
    Boolean.parse_self_xml_str (cl "1x") noFacets = .ok (cl "x") true ∧
    Boolean.parse_self_xml_str (cl "1rue") noFacets = .ok (cl "rue") true ∧
    Boolean.parse_self_xml_str (cl "truex") noFacets = .ok (cl "x") true ∧
    Boolean.parse_self_xml_str (cl "tru") noFacets = .noMatch := by
  decide

/-- C3.  NonNegativeInteger tightens `min_inclusive` to the maximum of the
intrinsic floor 0 and the caller's bound, delegates to Integer and re-wraps
the value as unsigned; PositiveInteger does the same with floor 1,
delegating to NonNegativeInteger.  Consequently `"5"` with caller
`min_inclusive = -3` parses to 5, and `"-5"` is a fatal facet violation
(lexical parse succeeds, the tightened bound 0 rejects it), not
no-match. -/
theorem C3_facet_narrowing :
    (∀ input f, NonNegativeInteger.parse_self_xml_str input f =
      (Integer.parse_self_xml_str input
        { f with min_inclusive := some (max 0 (f.min_inclusive.getD 0)) }).map u64_cast) ∧
    (∀ input f, PositiveInteger.parse_self_xml_str input f =
      NonNegativeInteger.parse_self_xml_str input
        { f with min_inclusive := some (max 1 (f.min_inclusive.getD 0)) }) ∧
    NonNegativeInteger.parse_self_xml_str (cl "5")
      { noFacets with min_inclusive := some (-3) } = .ok [] 5 ∧
    NonNegativeInteger.parse_self_xml_str (cl "-5") noFacets = .fatal := by
  refine ⟨?_, ?_, by decide, by decide⟩
  · intro input f
    cases h : Integer.parse_self_xml_str input
        { f with min_inclusive := some (max 0 (f.min_inclusive.getD 0)) } <;>
      simp [NonNegativeInteger.parse_self_xml_str, h, PRes.map]
  · intro input f
    cases h : NonNegativeInteger.parse_self_xml_str input
        { f with min_inclusive := some (max 1 (f.min_inclusive.getD 0)) } <;>
      simp [PositiveInteger.parse_self_xml_str, h]

/-- C4.  Numeric facet validation checks, in source order, strict
`min_exclusive`, inclusive `min_inclusive`, strict `max_exclusive`,
inclusive `max_inclusive`, over the exact decimal (rational) order, and
it passes exactly when every present bound is respected; when both a
minimum and a maximum bound are violated the earlier check fires; and for
Integer parsing a lexically valid input whose value violates a present
facet is fatal, never no-match. -/
theorem C4_numeric_facets :
    (∀ (n : ℚ) (f : Facets), validate_decimal n f = none ↔
      ((∀ m ∈ f.min_exclusive, m < n) ∧ (∀ m ∈ f.min_inclusive, m ≤ n) ∧
       (∀ m ∈ f.max_exclusive, n < m) ∧ (∀ m ∈ f.max_inclusive, n ≤ m))) ∧
    validate_decimal 4 { noFacets with min_exclusive := some 5, max_inclusive := some 3 }
      = some .minExclusive ∧
    (∀ input f rem n, Integer.lex input = some (rem, n) →
      validate_decimal (n : ℚ) f ≠ none → Integer.parse_self_xml_str input f = .fatal) ∧
    (∀ input f rem n, Integer.lex input = some (rem, n) →
      validate_decimal (n : ℚ) f = none → Integer.parse_self_xml_str input f = .ok rem n) ∧
    (∀ input f, Integer.lex input = none → Integer.parse_self_xml_str input f = .noMatch) := by
  refine ⟨?_, by decide, ?_, ?_, ?_⟩
  · intro n f
    obtain ⟨e, l, mnl, mxl, bme, bmi, bxe, bxi⟩ := f
    rcases bme with _ | a <;> rcases bmi with _ | b <;> rcases bxe with _ | c <;>
      rcases bxi with _ | d <;>
      simp only [validate_decimal, Option.isSome, Option.getD] <;>
      split_ifs <;>
      simp_all [not_le, not_lt, le_of_lt]
  · intro input f rem n h hv
    simp only [Integer.parse_self_xml_str, h]
    rcases hvd : validate_decimal (n : ℚ) f with _ | v
    · exact absurd hvd hv
    · rfl
  · intro input f rem n h hv
    simp only [Integer.parse_self_xml_str, h]
    rw [hv]
  · intro input f h
    simp only [Integer.parse_self_xml_str, h]

/-- C5, counterexample.  The claim includes AnyUri among the string-shaped
parses that validate the isolated candidate against the facet set; the
AnyUri implementation never invokes `validate_str!`, so `"ab"` under
`max_length = 1` is returned as a value instead of failing fatally. -/
theorem C5_string_facets_counterexample :
    AnyUri.parse_self_xml_str (cl "ab")
      { noFacets with max_length := some 1 } = .ok [] (cl "ab") ∧
    AnyUri.parse_self_xml_str (cl "ab")
      { noFacets with max_length := some 1 } ≠ .fatal := by
  decide

/-- C5, amended.  `validate_str!` checks enumeration membership, exact
length, minimum length and maximum length in that order and passes exactly
when every present facet is respected, the earliest violated check firing
first; but it is invoked only by Token (on both its split and whole-input
paths) and by XmlString and NcName on their split paths: the XmlString and
NcName whole-input paths and both AnyUri paths return the candidate without
any facet validation (AnyUri's result does not depend on the facet set at
all). -/
theorem C5_string_facets :
    (∀ s f, validate_str s f = none ↔
      ((∀ e ∈ f.enumeration, s ∈ e) ∧ (∀ l ∈ f.length, s.length = l) ∧
       (∀ l ∈ f.min_length, l ≤ s.length) ∧ (∀ l ∈ f.max_length, s.length ≤ l))) ∧
    validate_str (cl "ab")
      { noFacets with enumeration := some [cl "x"], min_length := some 5 }
      = some .enumeration ∧
    (∀ input f g, AnyUri.parse_self_xml_str input f = AnyUri.parse_self_xml_str input g) ∧
    Token.parse_self_xml_str (cl "ab") { noFacets with max_length := some 1 } = .fatal ∧
    Token.parse_self_xml_str (cl "ab  c") { noFacets with max_length := some 1 } = .fatal ∧
    XmlString.parse_self_xml_str (cl "ab") { noFacets with max_length := some 1 }
      = .ok [] (cl "ab") ∧
    XmlString.parse_self_xml_str ['a', 'b', Char.ofNat 0]
      { noFacets with max_length := some 1 } = .fatal ∧
    NcName.parse_self_xml_str (cl "ab") { noFacets with max_length := some 1 }
      = .ok [] (cl "ab") ∧
    NcName.parse_self_xml_str (cl "ab c") { noFacets with max_length := some 1 } = .fatal := by
  refine ⟨?_, by decide, ?_, by decide, by decide, by decide, by decide, by decide, by decide⟩
  · intro s f
    obtain ⟨e, l, mnl, mxl, bme, bmi, bxe, bxi⟩ := f
    rcases e with _ | e <;> rcases l with _ | l <;> rcases mnl with _ | mnl <;>
      rcases mxl with _ | mxl <;>
      simp only [validate_str, Option.isSome, Option.getD] <;>
      split_ifs <;>
      simp_all [not_le, not_lt]
  · intro input f g
    rfl

/-- The tag-balancing loop with an empty stack returns at once, leaving the
stream untouched. -/
theorem Any.tag_loop_nil (stream tokens : List XmlToken) :
    Any.tag_loop [] stream tokens = .ok stream tokens := by
  cases stream <;> rfl

/-- C6.  The five-token wildcard example consumes exactly the five tokens
(whatever follows them is the untouched remainder) and returns them as the
one Any value; the tag-balancing loop terminates exactly when the stack
empties, an ElementStart pushes, a close tag is compared by QName equality
with the top of the stack (popping on equality, fatal on mismatch — as in
the concrete mismatched-close run), an empty-element end pops without a
name check, and every other token is consumed and appended. -/
theorem C6_wildcard_balance :
    (∀ rest : List XmlToken,
      Any.parse_self_xml
        (.ElementStart [] (cl "foo") :: .Text (cl "hi") :: .ElementStart [] (cl "bar") ::
         .ElementEndTok .Empty :: .ElementEndTok (.Close [] (cl "foo")) :: rest) =
      .ok rest
        [.ElementStart [] (cl "foo"), .Text (cl "hi"), .ElementStart [] (cl "bar"),
         .ElementEndTok .Empty, .ElementEndTok (.Close [] (cl "foo"))]) ∧
    Any.parse_self_xml [.ElementStart [] (cl "foo"), .ElementEndTok (.Close [] (cl "bar"))]
      = .fatal ∧
    (∀ stream tokens, Any.tag_loop [] stream tokens = .ok stream tokens) ∧
    (∀ p n q stack stream tokens, QName.from_strspans p n ≠ q →
      Any.tag_loop (q :: stack) (.ElementEndTok (.Close p n) :: stream) tokens = .fatal) ∧
    (∀ p n q stack stream tokens, QName.from_strspans p n = q →
      Any.tag_loop (q :: stack) (.ElementEndTok (.Close p n) :: stream) tokens =
        Any.tag_loop stack stream (tokens ++ [.ElementEndTok (.Close p n)])) ∧
    (∀ q stack stream tokens,
      Any.tag_loop (q :: stack) (.ElementEndTok .Empty :: stream) tokens =
        Any.tag_loop stack stream (tokens ++ [.ElementEndTok .Empty])) ∧
    (∀ p n q stack stream tokens,
      Any.tag_loop (q :: stack) (.ElementStart p n :: stream) tokens =
        Any.tag_loop (QName.from_strspans p n :: q :: stack) stream
          (tokens ++ [.ElementStart p n])) ∧
    (∀ s q stack stream tokens,
      Any.tag_loop (q :: stack) (.Text s :: stream) tokens =
        Any.tag_loop (q :: stack) stream (tokens ++ [.Text s])) := by
  refine ⟨fun rest => Any.tag_loop_nil rest _, by decide, Any.tag_loop_nil, ?_, ?_,
    fun q stack stream tokens => rfl, fun p n q stack stream tokens => rfl,
    fun s q stack stream tokens => rfl⟩
  · intro p n q stack stream tokens h
    simp [Any.tag_loop, h]
  · intro p n q stack stream tokens h
    simp [Any.tag_loop, h]

/-- C6 witness: the two hypothesis-bearing conjuncts (matching and
mismatching close tags) discharged at concrete tags. -/
theorem C6_wildcard_balance_witness :
    Any.tag_loop [QName.from_strspans [] (cl "a")]
      [XmlToken.ElementEndTok (.Close [] (cl "b"))] [] = .fatal ∧
    Any.tag_loop [QName.from_strspans [] (cl "a")]
      [XmlToken.ElementEndTok (.Close [] (cl "a"))] [] =
      Any.tag_loop [] [] [XmlToken.ElementEndTok (.Close [] (cl "a"))] :=
  ⟨C6_wildcard_balance.2.2.2.1 [] (cl "b") (QName.from_strspans [] (cl "a")) [] [] []
      (by decide),
   C6_wildcard_balance.2.2.2.2.1 [] (cl "a") (QName.from_strspans [] (cl "a")) [] [] []
      (by decide)⟩

/-- C7, counterexample.  The claim states that AnyURIElement, on seeing a
next token other than Text, reports no-match without having advanced the
cursor; the implementation consumes the token via `stream.next()` with no
rollback, so on a one-token stream the no-match leaves the cursor past it
(an empty stream, not the original one-token stream). -/
theorem C7_nomatch_purity_counterexample :
    AnyURIElement.parse_self_xml [.ElementStart [] (cl "foo")] = .noMatch [] ∧
    ([] : List XmlToken) ≠ [.ElementStart [] (cl "foo")] := by
  decide

/-- C7, amended.  Value-space parsers take the input by immutable slice, so
a no-match trivially leaves it unchanged.  AnyURIElement consumes exactly
one token and no-matches with the cursor advanced past any non-Text token
(only the end of the stream leaves it in place).  Wildcard Any no-matching
on an unacceptable first token rolls the stream back to its starting
position, but when it exhausts the stream after consuming leading
whitespace, comment or text tokens it no-matches with those tokens left
consumed. -/
theorem C7_nomatch_purity :
    (∀ p n rest, AnyURIElement.parse_self_xml (.ElementStart p n :: rest) = .noMatch rest) ∧
    (∀ e rest, AnyURIElement.parse_self_xml (.ElementEndTok e :: rest) = .noMatch rest) ∧
    (∀ s rest, AnyURIElement.parse_self_xml (.Comment s :: rest) = .noMatch rest) ∧
    (∀ s rest, AnyURIElement.parse_self_xml (.Whitespaces s :: rest) = .noMatch rest) ∧
    (∀ p v rest, AnyURIElement.parse_self_xml (.Attribute p v :: rest) = .noMatch rest) ∧
    AnyURIElement.parse_self_xml [] = .noMatch [] ∧
    (∀ s rest, AnyURIElement.parse_self_xml (.Text s :: rest) = .ok rest s) ∧
    (∀ e rest, Any.parse_self_xml (.ElementEndTok e :: rest)
      = .noMatch (.ElementEndTok e :: rest)) ∧
    (∀ p v rest, Any.parse_self_xml (.Attribute p v :: rest)
      = .noMatch (.Attribute p v :: rest)) ∧
    Any.parse_self_xml [] = .noMatch [] ∧
    (∀ s, Any.parse_self_xml [.Text s] = .noMatch []) ∧
    (∀ s t, Any.parse_self_xml [.Whitespaces s, .Text t] = .noMatch []) :=
  ⟨fun p n rest => rfl, fun e rest => rfl, fun s rest => rfl, fun s rest => rfl,
   fun p v rest => rfl, rfl, fun s rest => rfl, fun e rest => rfl, fun p v rest => rfl,
   rfl, fun s => rfl, fun s t => rfl⟩

/-- C8, counterexample.  With scope `{"xs" -> "http://example/xs"}` and a
terminating space present (input `"xs:foo x"`), the implementation passes
`"xs:"` (colon included) to the namespace lookup — which fails — and keeps
the terminating space inside the local name, so the result is not the
clean colon-split, prefix-resolved QName the claim describes. -/
theorem C8_qname_counterexample :
    QName.parse_self_xml_str (cl "xs:foo x") ⟨[(cl "xs", cl "http://example/xs")]⟩ noFacets
      = .ok (cl " x") ⟨none, cl "foo "⟩ ∧
    (⟨none, cl "foo "⟩ : QName) ≠ ⟨some (cl "http://example/xs"), cl "foo"⟩ := by
  decide

/-- C8, amended.  QName parsing tracks the last colon before a terminating
space and is no-match on empty input; without a terminating space the split
at that colon is clean, so with scope `{"xs" -> "http://example/xs"}` the
input `"xs:foo"` resolves to namespace `"http://example/xs"` with local
name `"foo"` and `"foo"` to no namespace; but when a terminating space is
present the slice handed to the namespace lookup includes the trailing
colon and the local name includes the terminating space (the remainder
still begins at the space), for prefixed and unprefixed input alike. -/
theorem C8_qname_resolution :
    QName.parse_self_xml_str (cl "xs:foo") ⟨[(cl "xs", cl "http://example/xs")]⟩ noFacets
      = .ok [] ⟨some (cl "http://example/xs"), cl "foo"⟩ ∧
    QName.parse_self_xml_str (cl "foo") ⟨[(cl "xs", cl "http://example/xs")]⟩ noFacets
      = .ok [] ⟨none, cl "foo"⟩ ∧
    (∀ pc f, QName.parse_self_xml_str [] pc f = .noMatch) ∧
    QName.parse_self_xml_str (cl "xs:foo x") ⟨[(cl "xs", cl "http://example/xs")]⟩ noFacets
      = .ok (cl " x") ⟨none, cl "foo "⟩ ∧
    QName.parse_self_xml_str (cl "xs:foo x")
      ⟨[(cl "xs", cl "http://example/xs"), (cl "xs:", cl "colon-included")]⟩ noFacets
      = .ok (cl " x") ⟨some (cl "colon-included"), cl "foo "⟩ ∧
    QName.parse_self_xml_str (cl "foo b") ⟨[(cl "xs", cl "http://example/xs")]⟩ noFacets
      = .ok (cl " b") ⟨none, cl "foo "⟩ := by
  refine ⟨by decide, by decide, fun pc f => rfl, by decide, by decide, by decide⟩

/-- C9, counterexample.  The claim lists XmlString (and AnySimpleType)
among the value-space implementations that no-match on empty input; both
return a value (the empty slice, with empty remainder) instead. -/
theorem C9_empty_input_counterexample :
    XmlString.parse_self_xml_str [] noFacets = .ok [] [] ∧
    XmlString.parse_self_xml_str [] noFacets ≠ .noMatch ∧
    AnySimpleType.parse_self_xml_str [] noFacets = .ok [] [] ∧
    AnySimpleType.parse_self_xml_str [] noFacets ≠ .noMatch := by
  decide

/-- C9, amended.  On empty input, Token, NcName, AnyUri, QName, Integer,
NonNegativeInteger, PositiveInteger, Decimal and Boolean all return
no-match, for every facet set (and scope); XmlString and AnySimpleType
instead return the empty slice as a value with empty remainder. -/
theorem C9_empty_input :
    (∀ f, Token.parse_self_xml_str [] f = .noMatch) ∧
    (∀ f, NcName.parse_self_xml_str [] f = .noMatch) ∧
    (∀ f, AnyUri.parse_self_xml_str [] f = .noMatch) ∧
    (∀ pc f, QName.parse_self_xml_str [] pc f = .noMatch) ∧
    (∀ f, Integer.parse_self_xml_str [] f = .noMatch) ∧
    (∀ f, NonNegativeInteger.parse_self_xml_str [] f = .noMatch) ∧
    (∀ f, PositiveInteger.parse_self_xml_str [] f = .noMatch) ∧
    (∀ f, Decimal.parse_self_xml_str [] f = .noMatch) ∧
    (∀ f, Boolean.parse_self_xml_str [] f = .noMatch) ∧
    (∀ f, XmlString.parse_self_xml_str [] f = .ok [] []) ∧
    (∀ f, AnySimpleType.parse_self_xml_str [] f = .ok [] []) :=
  ⟨fun f => rfl, fun f => rfl, fun f => rfl, fun pc f => rfl, fun f => rfl,
   fun f => rfl, fun f => rfl, fun f => rfl, fun f => rfl, fun f => rfl, fun f => rfl⟩

/-! ## The mathematical reading of the digit-accumulation loop (for C10) -/

/-- The mathematical (unbounded) value of a digit string, as an integer. -/
def digitsValI (l : List Char) : Int := l.foldl (fun n c => n * 10 + digitVal c) 0

/-- A character of `'0'..='9'` has code point between 48 and 57. -/
theorem digit_bounds (c : Char) (h : isDigitCh c = true) : 48 ≤ c.toNat ∧ c.toNat ≤ 57 :=
  of_decide_eq_true h

/-- Folding the accumulation step from `n` is `n` shifted past the digits
plus their value. -/
theorem digitsValI_aux (l : List Char) : ∀ n : Int,
    l.foldl (fun n c => n * 10 + digitVal c) n = n * 10 ^ l.length + digitsValI l := by
  induction l with
  | nil => intro n; simp [digitsValI]
  | cons c t ih =>
    intro n
    have h0 := ih (n * 10 + digitVal c)
    have h1 := ih (0 * 10 + digitVal c)
    simp only [List.foldl_cons, digitsValI, List.length_cons] at *
    rw [h0, h1]
    ring

/-- Peeling the leading digit off the value of a digit string. -/
theorem digitsValI_cons (c : Char) (l : List Char) :
    digitsValI (c :: l) = digitVal c * 10 ^ l.length + digitsValI l := by
  have h1 := digitsValI_aux l (0 * 10 + digitVal c)
  simp only [digitsValI, List.foldl_cons] at *
  rw [h1]
  ring

/-- The value of a digit string is non-negative. -/
theorem digitsValI_nonneg (l : List Char) (h : ∀ c ∈ l, isDigitCh c = true) :
    0 ≤ digitsValI l := by
  induction l with
  | nil => simp [digitsValI]
  | cons c t ih =>
    have hc := digit_bounds c (h c (by simp))
    have h48 : '0'.toNat = 48 := rfl
    have hd : 0 ≤ digitVal c := by unfold digitVal; omega
    have ht : 0 ≤ digitsValI t := ih (fun d hd => h d (by simp [hd]))
    have hp : (0 : Int) < 10 ^ t.length := pow_pos (by norm_num) t.length
    rw [digitsValI_cons]
    have := mul_nonneg hd hp.le
    omega

/-- `wrap64` is the identity on the `i64` range. -/
theorem wrap64_eq_self (n : Int) (h1 : -(2 ^ 63) ≤ n) (h2 : n < 2 ^ 63) : wrap64 n = n := by
  have hp : (2 : Int) ^ 63 = 9223372036854775808 := by norm_num
  have hq : (2 : Int) ^ 64 = 18446744073709551616 := by norm_num
  unfold wrap64
  rw [hp, hq] at *
  omega

/-- The digit-accumulation loop, read mathematically: starting from a
non-negative accumulator, consuming the digits `ds` (stopping before
`rest`, whose head is not a digit) yields the accumulator shifted past the
digits plus their value, provided that result stays below `2^63` (so no
`i64` wraparound occurs along the way). -/
theorem Integer.lex_digits_spec (ds : List Char) : ∀ (rest : List Char) (n : Int),
    (∀ c ∈ ds, isDigitCh c = true) →
    (∀ c ∈ rest.head?, isDigitCh c = false) →
    0 ≤ n →
    n * 10 ^ ds.length + digitsValI ds < 2 ^ 63 →
    Integer.lex_digits n (ds ++ rest) = (n * 10 ^ ds.length + digitsValI ds, rest) := by
  induction ds with
  | nil =>
    intro rest n hds hrest hn hb
    simp only [List.nil_append, digitsValI, List.foldl_nil, List.length_nil, pow_zero,
      mul_one, add_zero]
    cases rest with
    | nil => rfl
    | cons c r2 =>
      have hc : isDigitCh c = false := hrest c (by simp)
      simp [Integer.lex_digits, hc]
  | cons d t ih =>
    intro rest n hds hrest hn hb
    have hd : isDigitCh d = true := hds d (by simp)
    have hd48 := digit_bounds d hd
    have h48 : '0'.toNat = 48 := rfl
    have hdg : 0 ≤ digitVal d := by unfold digitVal; omega
    have hDnn : 0 ≤ digitsValI t := digitsValI_nonneg t (fun c hc => hds c (by simp [hc]))
    have hp1 : (1 : Int) ≤ 10 ^ t.length := by
      have := pow_pos (show (0 : Int) < 10 by norm_num) t.length
      omega
    have hkey : n * 10 ^ (d :: t).length + digitsValI (d :: t)
        = (n * 10 + digitVal d) * 10 ^ t.length + digitsValI t := by
      rw [digitsValI_cons]
      simp only [List.length_cons]
      ring
    have hm0 : 0 ≤ n * 10 + digitVal d := by omega
    have hmb : (n * 10 + digitVal d) * 10 ^ t.length + digitsValI t < 2 ^ 63 := by
      rw [hkey] at hb; exact hb
    have hmlt : n * 10 + digitVal d < 2 ^ 63 := by
      have hle : n * 10 + digitVal d ≤ (n * 10 + digitVal d) * 10 ^ t.length :=
        le_mul_of_one_le_right hm0 hp1
      omega
    have hwrap : wrap64 (n * 10 + digitVal d) = n * 10 + digitVal d :=
      wrap64_eq_self _ (le_trans (by norm_num) hm0) hmlt
    have step : Integer.lex_digits n ((d :: t) ++ rest)
        = Integer.lex_digits (wrap64 (n * 10 + digitVal d)) (t ++ rest) := by
      simp [Integer.lex_digits, hd]
    rw [step, hwrap, ih rest (n * 10 + digitVal d) (fun c hc => hds c (by simp [hc]))
      hrest hm0 hmb, hkey]

set_option maxRecDepth 8000 in
/-- C10.  Integer parsing: an optional leading sign must be followed by a
digit (a bare sign, or an input starting with neither sign nor digit, is
no-match); the digits are accumulated as `n = n*10 + d` and the loop stops
at the first non-digit, which begins the remainder, so an unsigned, `'+'`-
or `'-'`-signed digit string whose value fits in an `i64` parses to exactly
(plus or minus) its mathematical value with the non-digit tail as
remainder; the accumulation is `i64` arithmetic with overflow unchecked,
so `"9223372036854775808"` (2^63) silently wraps to `-2^63`; and the
parsed result is facet-validated through the decimal value space (fatal on
violation, `ok` otherwise). -/
theorem C10_integer_lexical (ds rest : List Char)
    (h1 : ds ≠ [])
    (h2 : ∀ c ∈ ds, isDigitCh c = true)
    (h3 : ∀ c ∈ rest.head?, isDigitCh c = false)
    (h4 : digitsValI ds < 2 ^ 63) :
    Integer.lex (ds ++ rest) = some (rest, digitsValI ds) ∧
    Integer.lex ('+' :: (ds ++ rest)) = some (rest, digitsValI ds) ∧
    Integer.lex ('-' :: (ds ++ rest)) = some (rest, -digitsValI ds) ∧
    (∀ f, Integer.parse_self_xml_str [] f = .noMatch) ∧
    (∀ f, Integer.parse_self_xml_str (cl "+") f = .noMatch) ∧
    (∀ f, Integer.parse_self_xml_str (cl "-") f = .noMatch) ∧
    (∀ f, Integer.parse_self_xml_str (cl "+x") f = .noMatch) ∧
    (∀ f, Integer.parse_self_xml_str (cl "x1") f = .noMatch) ∧
    Integer.parse_self_xml_str (cl "9223372036854775808") noFacets
      = .ok [] (-(2 ^ 63)) ∧
    (∀ input f rem n, Integer.lex input = some (rem, n) →
      validate_decimal (n : ℚ) f = none → Integer.parse_self_xml_str input f = .ok rem n) := by
  obtain ⟨d, t, rfl⟩ : ∃ d t, ds = d :: t := by
    cases ds with
    | nil => exact absurd rfl h1
    | cons d t => exact ⟨d, t, rfl⟩
  have hd : isDigitCh d = true := h2 d (by simp)
  have hd48 := digit_bounds d hd
  have h48 : '0'.toNat = 48 := rfl
  have hdg : 0 ≤ digitVal d := by unfold digitVal; omega
  have hDnn : 0 ≤ digitsValI (d :: t) := digitsValI_nonneg _ h2
  have hne : ¬ (d = '+' ∨ d = '-') := by
    rintro (rfl | rfl) <;> exact absurd hd (by decide)
  have hcons : digitsValI (d :: t) = digitVal d * 10 ^ t.length + digitsValI t :=
    digitsValI_cons d t
  have hspec : Integer.lex_digits (digitVal d) (t ++ rest)
      = (digitVal d * 10 ^ t.length + digitsValI t, rest) :=
    Integer.lex_digits_spec t rest (digitVal d) (fun c hc => h2 c (by simp [hc])) h3 hdg
      (by rw [← hcons]; exact h4)
  have hwrapid : wrap64 (1 * digitsValI (d :: t)) = digitsValI (d :: t) := by
    rw [one_mul]
    exact wrap64_eq_self _ (le_trans (by norm_num) hDnn) h4
  have hwrapneg : wrap64 (-1 * digitsValI (d :: t)) = -digitsValI (d :: t) := by
    have hq : -1 * digitsValI (d :: t) = -digitsValI (d :: t) := by ring
    rw [hq]
    exact wrap64_eq_self _ (neg_le_neg h4.le)
      (lt_of_le_of_lt (neg_nonpos.mpr hDnn) (by norm_num))
  have hlex : Integer.lex ((d :: t) ++ rest) = some (rest, digitsValI (d :: t)) := by
    simp only [List.cons_append, Integer.lex, hne, hd]
    simp only [if_false, if_true, ite_false, ite_true]
    rw [hspec]
    simp only [← hcons, hwrapid]
  refine ⟨hlex, ?_, ?_, fun f => rfl, fun f => rfl, fun f => rfl,
    fun f => rfl, fun f => rfl, by decide, ?_⟩
  · have hp : Integer.lex ('+' :: ((d :: t) ++ rest))
        = some (rest, wrap64 (1 * digitsValI (d :: t))) := by
      simp only [Integer.lex, List.cons_append, hd, true_or, or_true, ite_true]
      rw [if_neg (show ¬ ('+' : Char) = '-' by decide)]
      rw [hspec, ← hcons]
    rw [hp, hwrapid]
  · have hp : Integer.lex ('-' :: ((d :: t) ++ rest))
        = some (rest, wrap64 (-1 * digitsValI (d :: t))) := by
      simp only [Integer.lex, List.cons_append, hd, true_or, or_true, ite_true]
      rw [hspec, ← hcons]
    rw [hp, hwrapneg]
  · intro input f rem n h hv
    simp only [Integer.parse_self_xml_str, h, hv]

/-- C10 witness: the general statement discharged at the concrete input
`"12 x"` (digits `"12"`, remainder `" x"`). -/
theorem C10_integer_lexical_witness :
    Integer.lex (cl "12" ++ cl " x") = some (cl " x", digitsValI (cl "12")) :=
  (C10_integer_lexical (cl "12") (cl " x") (by decide) (by decide) (by decide)
    (by decide)).1

end RustXmlSchema
